import Mathlib

/-!
Shallow embedding of the algo-trade position-lifecycle engines
(delta-neutral engine, iron-condor engine, strategy classes and the
backtest scripts) together with proofs about order sequencing, risk
thresholds, roll budgets, pnl aggregation, idempotence of close,
backtest determinism and entry rejection.

Conventions used throughout:
 * JavaScript numbers are modelled as exact rationals (ℚ).
 * `toFixed(2)` followed by `parseFloat` is modelled by `round2`
   (round half away from zero at two decimals; all concrete values
   used below are far from ties).
 * Sequences of gateway calls (order placement / close calls) are
   modelled as explicit traces (lists), in the order the source
   awaits them.
-/

namespace AlgoTrade

/-- Rounding to two decimals, modelling `parseFloat(x.toFixed(2))`. -/
def round2 (q : ℚ) : ℚ := (⌊q * 100 + 1/2⌋ : ℚ) / 100

/-- Rounding to the nearest integer, modelling `Math.round`. -/
def roundJS (q : ℚ) : ℚ := (⌊q + 1/2⌋ : ℚ)

/-- The four legs of a delta-neutral position, as keyed in
`position.legs` of the delta-neutral engine and strategy. -/
inductive LegKey
  | callBuy
  | callSell
  | putBuy
  | putSell
deriving DecidableEq, Repr, Inhabited

/-- Order side of a leg. -/
inductive Side
  | buy
  | sell
deriving DecidableEq, Repr

open LegKey Side

/-- Leg side per the engine's `LEG_CONFIG` / `enterPosition` leg
definitions (callBuy and putBuy are BUY, callSell and putSell SELL). -/
def legSide : LegKey → Side
  | callBuy => .buy
  | putBuy => .buy
  | callSell => .sell
  | putSell => .sell

/-- The `exitPriority` each leg receives at entry
(callSell 1, putSell 2, callBuy 3, putBuy 4). -/
def legExitPriority : LegKey → ℕ
  | callSell => 1
  | putSell => 2
  | callBuy => 3
  | putBuy => 4

/-- Which legs of the position are currently ACTIVE
(the boolean image of `legs[k].status === 'ACTIVE'`). -/
structure ActiveLegs where
  cb : Bool
  cs : Bool
  pb : Bool
  ps : Bool
deriving DecidableEq, Repr, Fintype

/-- Whether a given leg is active in an `ActiveLegs` record. -/
def ActiveLegs.mem (a : ActiveLegs) : LegKey → Bool
  | callBuy => a.cb
  | callSell => a.cs
  | putBuy => a.pb
  | putSell => a.ps

/-- `Object.keys(legs)` insertion order of `_emptyPosition`. -/
def legKeysInOrder : List LegKey := [callBuy, callSell, putBuy, putSell]

/-- Stable insertion of a key into a list sorted by `exitPriority`,
modelling the comparator `(a, b) => legs[a].exitPriority - legs[b].exitPriority`. -/
def insertByPriority (k : LegKey) : List LegKey → List LegKey
  | [] => [k]
  | x :: xs =>
      if legExitPriority k ≤ legExitPriority x then k :: x :: xs
      else x :: insertByPriority k xs

/-- Stable sort by ascending `exitPriority`, modelling `Array.sort`
with the numeric comparator used in the engine. -/
def sortByPriority : List LegKey → List LegKey
  | [] => []
  | x :: xs => insertByPriority x (sortByPriority xs)

namespace DN8

/-!
`DeltaNeutralEngine` (SENSEX weekly engine). The exit paths
`mondayTimeExit`, `exitAll` and `_exitPair` each decide the order in
which the per-leg market exit orders are sent to the gateway; we model
that order as a list of leg keys.
-/

/-- Gateway close-call order of `DeltaNeutralEngine.mondayTimeExit`:
active sell legs sorted by ascending exitPriority, then active buy
legs sorted by ascending exitPriority. -/
def mondayTimeExitTrace (a : ActiveLegs) : List LegKey :=
  let activeKeys := legKeysInOrder.filter (fun k => a.mem k)
  let sells := sortByPriority (activeKeys.filter (fun k => legSide k = .sell))
  let buys := sortByPriority (activeKeys.filter (fun k => legSide k = .buy))
  sells ++ buys

/-- Gateway close-call order of `DeltaNeutralEngine.exitAll`:
identical sell-first, priority-sorted sequencing. -/
def exitAllTrace (a : ActiveLegs) : List LegKey :=
  let activeKeys := legKeysInOrder.filter (fun k => a.mem k)
  let sells := sortByPriority (activeKeys.filter (fun k => legSide k = .sell))
  let buys := sortByPriority (activeKeys.filter (fun k => legSide k = .buy))
  sells ++ buys

/-- Gateway close-call order of `DeltaNeutralEngine._exitPair`:
the requested keys sorted by ascending exitPriority, restricted to
legs still active. -/
def exitPairTrace (keys : List LegKey) (a : ActiveLegs) : List LegKey :=
  (sortByPriority keys).filter (fun k => a.mem k)

end DN8

/-- True iff in the close-call trace every SELL-leg call precedes
every BUY-leg call and calls of the same side come in ascending
`exitPriority` order. This is the ordering property the claim states
for multi-leg exits. -/
def exitOrderOk : List LegKey → Bool
  | [] => true
  | [_] => true
  | x :: y :: rest =>
      (match legSide x, legSide y with
        | .sell, .sell => legExitPriority x ≤ legExitPriority y
        | .sell, .buy => true
        | .buy, .buy => legExitPriority x ≤ legExitPriority y
        | .buy, .sell => false) && exitOrderOk (y :: rest)

namespace IC

/-!
`IronCondorEngine`. `_exitSpread` closes one vertical spread: it buys
back the SELL leg first, then sells the BUY (hedge) leg. `_expiryExit`
iterates over the call side then the put side, exiting each still
active spread in turn. We model the position-level gateway close-call
trace as a list of (side of the spread, side of the leg being closed).
-/

/-- Which vertical spread a call belongs to. -/
inductive SpreadSide
  | call
  | put
deriving DecidableEq, Repr

/-- A gateway close call of the iron-condor engine: the spread it
belongs to and the side (BUY hedge or SELL short) of the leg closed. -/
structure CloseCall where
  spread : SpreadSide
  leg : Side
deriving DecidableEq, Repr

/-- Close-call trace of `IronCondorEngine._exitSpread`: buy back the
SELL leg first, then sell the BUY hedge leg. -/
def exitSpreadTrace (s : SpreadSide) : List CloseCall :=
  [⟨s, .sell⟩, ⟨s, .buy⟩]

/-- Close-call trace of `IronCondorEngine._expiryExit` given which
spreads are still ACTIVE: the call spread is exited fully before the
put spread. -/
def expiryExitTrace (callActive putActive : Bool) : List CloseCall :=
  (if callActive then exitSpreadTrace .call else []) ++
  (if putActive then exitSpreadTrace .put else [])

/-- One step of `IronCondorEngine.checkEntry`'s live order sequence:
either a market placement for one leg of a spread (the transaction
type at entry equals the leg's own side) or a fixed delay in
milliseconds (an awaited setTimeout). -/
inductive EntryStep
  | place (spread : SpreadSide) (leg : Side)
  | wait (ms : ℕ)
deriving DecidableEq, Repr

/-- Live entry order sequence of `IronCondorEngine.checkEntry`:
call hedge BUY, put hedge BUY, a 500 ms fill pause, then call SELL
and put SELL. -/
def checkEntryTrace : List EntryStep :=
  [.place .call .buy, .place .put .buy, .wait 500,
   .place .call .sell, .place .put .sell]

/-- True iff no BUY placement occurs after a SELL placement. -/
def entryHedgeFirst : List EntryStep → Bool
  | [] => true
  | .place _ .sell :: rest =>
      rest.all (fun st => match st with
        | .place _ s => s = .sell
        | .wait _ => true)
  | .place _ .buy :: rest => entryHedgeFirst rest
  | .wait _ :: rest => entryHedgeFirst rest

/-- True iff the trace contains no SELL placement at all, or a wait
step occurs before the first SELL placement. -/
def waitBeforeSells : List EntryStep → Bool
  | [] => true
  | .place _ .sell :: _ => false
  | .place _ .buy :: rest => waitBeforeSells rest
  | .wait _ :: _ => true

end IC

namespace DNE

/-!
`DeltaNeutralEngine.openLiveTrade` (services/deltaNeutralEngine.js):
the live entry path awaits the four `placeOrder` calls in the order
callSell, putSell (comment: sell legs first, margin), then callBuy,
putBuy, with no pause in between.
-/

/-- Order placement sequence of `DeltaNeutralEngine.openLiveTrade`. -/
def openLiveTradeTrace : List LegKey :=
  [.callSell, .putSell, .callBuy, .putBuy]

end DNE

/-- Buy-before-sell check on a list of leg sides: true iff no BUY leg
placement occurs after a SELL leg placement. -/
def buysBeforeSells : List Side → Bool
  | [] => true
  | .buy :: rest => buysBeforeSells rest
  | .sell :: rest => rest.all (fun s => s = .sell)

/-- Sell-before-buy check on a list of leg sides: true iff no SELL leg
close occurs after a BUY leg close. -/
def sellsBeforeBuys : List Side → Bool
  | [] => true
  | .sell :: rest => sellsBeforeBuys rest
  | .buy :: rest => rest.all (fun s => s = .buy)

/-- Claim C1: as stated the claim fails on the code. The iron-condor
expiry exit with both spreads still active issues the close calls in
the order callSell, callBuy(hedge), putSell, putBuy(hedge): the BUY
hedge close of the call spread is issued before the SELL leg close of
the put spread, so not all SELL-leg gateway calls precede all BUY-leg
calls in that multi-leg exit. -/
theorem C1_counterexample :
    IC.expiryExitTrace true true =
      [⟨.call, .sell⟩, ⟨.call, .buy⟩, ⟨.put, .sell⟩, ⟨.put, .buy⟩] ∧
    sellsBeforeBuys ((IC.expiryExitTrace true true).map IC.CloseCall.leg) = false := by
  constructor
  · rfl
  · rfl

/-- Claim C1 (amended): in the delta-neutral engine's multi-leg exits
(`mondayTimeExit`, `exitAll`, and the pair exits used by the leg
stops) all SELL-leg gateway close calls precede all BUY-leg calls and
same-side exits are issued in ascending exitPriority order; in the
iron-condor engine each spread's exit buys back the SELL leg before
selling the BUY hedge, but `_expiryExit` sequences the call spread
before the put spread, so with both spreads active the call hedge BUY
close precedes the put SELL close. -/
theorem C1_exit_ordering :
    (∀ a : ActiveLegs, exitOrderOk (DN8.mondayTimeExitTrace a) = true) ∧
    (∀ a : ActiveLegs, exitOrderOk (DN8.exitAllTrace a) = true) ∧
    (∀ a : ActiveLegs,
      exitOrderOk (DN8.exitPairTrace [.callSell, .callBuy] a) = true ∧
      exitOrderOk (DN8.exitPairTrace [.putSell, .putBuy] a) = true) ∧
    (∀ s : IC.SpreadSide,
      (IC.exitSpreadTrace s).map IC.CloseCall.leg = [.sell, .buy]) := by
  refine ⟨?_, ?_, ?_, ?_⟩
  · decide
  · decide
  · decide
  · intro s; cases s <;> rfl

/-- Claim C2: as stated the claim fails on the code. The delta-neutral
engine's live entry (`openLiveTrade`) awaits the two SELL leg
placements before the two BUY leg placements (the source comments
"Place sell legs first (margin)"), so for that hedge+short topology
entry the BUY legs are not placed before the SELL legs. -/
theorem C2_counterexample :
    DNE.openLiveTradeTrace = [.callSell, .putSell, .callBuy, .putBuy] ∧
    buysBeforeSells (DNE.openLiveTradeTrace.map legSide) = false := by
  exact ⟨rfl, rfl⟩

/-- Claim C2 (amended): in the iron-condor engine's live entry
(`checkEntry`) both BUY hedge leg placements are issued, followed by a
500 ms fill-confirmation pause, before any SELL leg placement; the
delta-neutral engine's `openLiveTrade`, however, places its two SELL
legs first and then the two BUY legs with no pause. -/
theorem C2_entry_ordering :
    IC.entryHedgeFirst IC.checkEntryTrace = true ∧
    IC.waitBeforeSells IC.checkEntryTrace = true ∧
    sellsBeforeBuys (DNE.openLiveTradeTrace.map legSide) = true := by
  exact ⟨rfl, rfl, rfl⟩

namespace IC

/-!
Firefight monitor (`IronCondorEngine.monitorFirefight`) and the roll
budget (`executeShift`, `recordRoll`). Per side, the monitor computes
the estimated cost to close the spread from the spot intrusion past
the sell strike, the expansion ratio, and the opposing side's booked
profit (decay), and then decides: exit the spread (4x SL), roll it
(firefight shift, budget permitting), or hold.
-/

/-- Engine firefight configuration (`CFG.FIREFIGHT`). -/
def LOSS_3X : ℚ := 3
/-- Decay needed on the opposing side for a roll (`PROFIT_70`). -/
def PROFIT_70 : ℚ := 7/10
/-- Expansion multiple naming the 4x stop (`LOSS_4X`). -/
def LOSS_4X : ℚ := 4
/-- Max total rolls, system plus discretionary (`MAX_ROLLS`). -/
def MAX_ROLLS : ℕ := 2

/-- State of one vertical spread as kept on the position
(`callSpread` / `putSpread`). -/
structure SpreadState where
  netCredit : ℚ
  currentPremium : ℚ
  sellStrike : ℚ
  active : Bool
deriving DecidableEq, Repr

/-- Outcome of one side's firefight evaluation on a tick. -/
inductive FFAction
  | exit4x
  | roll
  | hold
deriving DecidableEq, Repr

/-- Spot intrusion past the call sell strike
(`Math.max(0, spot - cs.sellStrike)`; the put side uses
`sellStrike - spot`). -/
def intrusionCall (spot sellStrike : ℚ) : ℚ := max 0 (spot - sellStrike)

/-- Estimated current cost to close the spread
(`cs.netCredit + intrusion * 0.6`). -/
def ffCurrentCost (netCredit intrusion : ℚ) : ℚ := netCredit + intrusion * (3/5)

/-- Booked profit fraction on the opposing spread
(`Math.max(0, (ps.netCredit - ps.currentPremium) / ps.netCredit)`
when it is still ACTIVE, otherwise 0). -/
def ffDecay (opp : SpreadState) : ℚ :=
  if opp.active then max 0 ((opp.netCredit - opp.currentPremium) / opp.netCredit) else 0

/-- The effective 4x stop level
(`cs.netCredit * LOSS_4X - ps.netCredit * profitBooked`). -/
def ffEffectiveSL (s opp : SpreadState) : ℚ :=
  s.netCredit * LOSS_4X - opp.netCredit * ffDecay opp

/-- One call-side firefight evaluation of `monitorFirefight` (the put
side is symmetric with the mirrored intrusion): exit the spread when
the current cost reaches the effective stop, otherwise roll when the
expansion reaches 3x, the opposing decay reaches 0.70 and the roll
budget is not exhausted. -/
def ffDecideCall (spot : ℚ) (cs ps : SpreadState)
    (systemRolls discretionaryRolls : ℕ) : FFAction :=
  if cs.active then
    let currentCost := ffCurrentCost cs.netCredit (intrusionCall spot cs.sellStrike)
    let expansion := currentCost / cs.netCredit
    let profitBooked := ffDecay ps
    let effectiveSL := cs.netCredit * LOSS_4X - ps.netCredit * profitBooked
    if effectiveSL ≤ currentCost then .exit4x
    else if LOSS_3X ≤ expansion ∧ PROFIT_70 ≤ profitBooked then
      if systemRolls + discretionaryRolls < MAX_ROLLS then .roll else .hold
    else .hold
  else .hold

/-- Roll step on the monitor path: the budget guard
(`systemRolls + discretionaryRolls < MAX_ROLLS`) wrapped around
`executeShift`, which increments `systemRolls`. Returns the
(systemRolls, discretionaryRolls) pair after the tick. -/
def monitorRollStep (s d : ℕ) : ℕ × ℕ :=
  if s + d < MAX_ROLLS then (s + 1, d) else (s, d)

/-- Roll type accepted by `recordRoll` through the public API. -/
inductive RollType
  | system
  | discretionary
deriving DecidableEq, Repr

/-- `IronCondorEngine.recordRoll`: unconditionally increments the
counter selected by the requested type (no budget check). -/
def recordRoll (s d : ℕ) : RollType → ℕ × ℕ
  | .system => (s + 1, d)
  | .discretionary => (s, d + 1)

end IC

/-- Claim C3: as stated the claim fails on the code. The monitor's
exit condition is only currentCost at or above the effective stop;
expansion at or above 4.0 is not required. With entry credit 12 on
both sides, opposing decay 0.70 (effective stop 39.6) and a spot
intrusion making the current cost 40, the expansion is 10/3, strictly
below 4.0, yet the spread is exited. -/
theorem C3_counterexample :
    IC.ffDecideCall (240140/3) ⟨12, 0, 80000, true⟩ ⟨12, 18/5, 0, true⟩ 0 0 =
      .exit4x ∧
    IC.ffCurrentCost 12 (IC.intrusionCall (240140/3) 80000) = 40 ∧
    IC.ffCurrentCost 12 (IC.intrusionCall (240140/3) 80000) / 12 = 10/3 ∧
    ¬ (IC.LOSS_4X ≤ 10/3) := by
  refine ⟨?_, ?_, ?_, ?_⟩ <;>
    norm_num [IC.ffDecideCall, IC.ffCurrentCost, IC.intrusionCall, IC.ffDecay,
      IC.ffEffectiveSL, IC.LOSS_4X, IC.LOSS_3X, IC.PROFIT_70, IC.MAX_ROLLS, max_def]

/-- Claim C3 (amended): on a monitoring tick a still-ACTIVE spread is
exited immediately, independent of the roll budget, exactly when
currentCost is at or above 4 times the entry credit minus
opposingCredit times opposingDecay (the expansion ratio is not
separately required to reach 4.0); in particular with entryCredit 12,
currentCost 50 and opposing decay 0.70 the effective stop is 39.6 and
the spread exits with the 4x SL reason. -/
theorem C3_4x_stop :
    (∀ (spot : ℚ) (cs ps : IC.SpreadState) (s d : ℕ), cs.active = true →
      (IC.ffDecideCall spot cs ps s d = .exit4x ↔
        IC.ffEffectiveSL cs ps ≤
          IC.ffCurrentCost cs.netCredit (IC.intrusionCall spot cs.sellStrike))) ∧
    IC.ffEffectiveSL ⟨12, 0, 0, true⟩ ⟨12, 18/5, 0, true⟩ = 198/5 ∧
    IC.ffCurrentCost 12 (IC.intrusionCall (190/3) 0) = 50 ∧
    IC.ffDecideCall (190/3) ⟨12, 0, 0, true⟩ ⟨12, 18/5, 0, true⟩ 0 0 = .exit4x := by
  refine ⟨?_, ?_, ?_, ?_⟩
  · intro spot cs ps s d h
    simp only [IC.ffDecideCall, h, if_true, IC.ffEffectiveSL]
    split_ifs with h1 h2 h3 <;> simp_all
  all_goals
    norm_num [IC.ffDecideCall, IC.ffCurrentCost, IC.intrusionCall, IC.ffDecay,
      IC.ffEffectiveSL, IC.LOSS_4X, IC.LOSS_3X, IC.PROFIT_70, IC.MAX_ROLLS, max_def]

/-- Concrete instantiation of the general 4x-stop characterization at
the scene of the claim (entry credit 12, cost 50, decay 0.70). -/
theorem C3_4x_stop_witness :
    IC.ffDecideCall (190/3) ⟨12, 0, 0, true⟩ ⟨12, 18/5, 0, true⟩ 3 7 = .exit4x :=
  (C3_4x_stop.1 (190/3) ⟨12, 0, 0, true⟩ ⟨12, 18/5, 0, true⟩ 3 7 rfl).mpr
    (by norm_num [IC.ffEffectiveSL, IC.ffCurrentCost, IC.intrusionCall, IC.ffDecay,
      IC.LOSS_4X, max_def])

/-- Claim C5: as stated the claim fails on the code. `recordRoll` (the
roll-recording operation exposed through the public API route
/api/iron-condor/roll) increments its counter with no budget check, so
three successive recorded rolls on one position drive
systemRolls + discretionaryRolls to 3, above MAX_ROLLS = 2. -/
theorem C5_counterexample :
    IC.recordRoll 0 0 .system = (1, 0) ∧
    IC.recordRoll 1 0 .discretionary = (1, 1) ∧
    IC.recordRoll 1 1 .discretionary = (1, 2) ∧
    ¬ ((IC.recordRoll 1 1 .discretionary).1 +
        (IC.recordRoll 1 1 .discretionary).2 ≤ IC.MAX_ROLLS) := by
  refine ⟨rfl, rfl, rfl, by decide⟩

/-- Claim C5 (amended): system rolls triggered by the firefight
monitor are guarded by systemRolls + discretionaryRolls less than
maxRolls before `executeShift` runs, so the invariant
systemRolls + discretionaryRolls at most maxRolls is preserved on that
path; `recordRoll` via the public API increments unconditionally, and
repeated recorded rolls can exceed maxRolls. -/
theorem C5_roll_budget :
    (∀ s d : ℕ, s + d ≤ IC.MAX_ROLLS →
      (IC.monitorRollStep s d).1 + (IC.monitorRollStep s d).2 ≤ IC.MAX_ROLLS) ∧
    IC.MAX_ROLLS <
      (IC.recordRoll 1 1 .discretionary).1 + (IC.recordRoll 1 1 .discretionary).2 := by
  constructor
  · intro s d h
    unfold IC.monitorRollStep
    split_ifs with h1
    · simp only []
      omega
    · simpa using h
  · decide

/-- The monitor-path roll preservation instantiated at a concrete
budget state. -/
theorem C5_roll_budget_witness :
    (1 : ℕ) + 0 ≤ IC.MAX_ROLLS ∧
    (IC.monitorRollStep 1 0).1 + (IC.monitorRollStep 1 0).2 ≤ IC.MAX_ROLLS :=
  ⟨by decide, C5_roll_budget.1 1 0 (by decide)⟩

/-- Leg status (monotonic ACTIVE to CLOSED). -/
inductive LegStatus
  | ACTIVE
  | CLOSED
deriving DecidableEq, Repr

/-- Position lifecycle status. -/
inductive PosStatus
  | IDLE
  | ACTIVE
  | PARTIAL
  | CLOSED
deriving DecidableEq, Repr

/-- Constructor disequality fact used to evaluate status guards. -/
theorem closed_eq_active_false : (LegStatus.CLOSED = LegStatus.ACTIVE) = False := by
  simp

/-- Constructor disequality fact used to evaluate side guards. -/
theorem sell_eq_buy_false : (Side.sell = Side.buy) = False := by
  simp

namespace DN10

/-!
`DeltaNeutralStrategy` of the strategies module (the variant holding
`activeLegs`, `lastBuyLeg`, `trailLevel`, `lockedProfit` and
`trailSL`). We embed `monitorPosition`, `closeLegs` and `closeAll`.
Fields of the source position that the embedded operations never read
(entry/expiry dates, spot, symbols, the mirrored `alerts` field, the
per-leg `slRupees`, `closeReason` and `closeTime` strings) are
omitted; the alert list returned by `monitorPosition` is modelled by
the list of alert types pushed. Quote maps are modelled as functions
to ℚ in which 0 plays the role of a missing (falsy) last price. -/

/-- Lot size (`CONFIG.LOT_SIZE`). -/
def LOT_SIZE : ℚ := 20

/-- The trailing step table (`CONFIG.TRAIL_LEVELS`): pairs of
(profit threshold, locked profit). -/
def TRAIL_LEVELS : List (ℚ × ℚ) :=
  [(1000, 250), (2000, 1000), (3000, 1750), (4000, 2500), (5000, 3250),
   (6000, 4000), (7000, 4750), (8000, 5500), (9000, 6250), (10000, 7000)]

/-- One leg of the position, with per-leg stop level and pnl in
rupees. -/
structure Leg where
  status : LegStatus
  entryPremium : ℚ
  currentPremium : ℚ
  sl : ℚ
  pnl : ℚ
deriving DecidableEq, Repr

/-- The position state carried by the strategy. -/
structure Position where
  status : PosStatus
  netDebit : ℚ
  combinedSL : ℚ
  callBuy : Leg
  callSell : Leg
  putBuy : Leg
  putSell : Leg
  activeLegs : List LegKey
  lastBuyLeg : Option LegKey
  trailLevel : ℕ
  lockedProfit : ℚ
  trailSL : Option ℚ
  pnl : ℚ
deriving DecidableEq, Repr

/-- Leg lookup (`pos.legs[key]`). -/
def Position.leg (p : Position) : LegKey → Leg
  | .callBuy => p.callBuy
  | .callSell => p.callSell
  | .putBuy => p.putBuy
  | .putSell => p.putSell

/-- Leg update (assignment to `pos.legs[key]`). -/
def Position.setLeg (p : Position) : LegKey → Leg → Position
  | .callBuy, l => { p with callBuy := l }
  | .callSell, l => { p with callSell := l }
  | .putBuy, l => { p with putBuy := l }
  | .putSell, l => { p with putSell := l }

/-- Alert types pushed by `monitorPosition`. -/
inductive AlertType
  | COMBINED_SL
  | CALL_BUY_SL
  | PUT_BUY_SL
  | CALL_SELL_SL
  | PUT_SELL_SL
  | TRAIL_UPDATE
  | TRAIL_SL_HIT
deriving DecidableEq, Repr

/-- Action types returned by `monitorPosition` for the engine to
execute. -/
inductive ActionType
  | EXIT_ALL
  | EXIT_LEGS
deriving DecidableEq, Repr

/-- An action returned by `monitorPosition` (`EXIT_ALL` carries no leg
list in the source; we model it with an empty list). -/
structure Action where
  type : ActionType
  legs : List LegKey
  reason : AlertType
deriving DecidableEq, Repr

/-- Whether a leg key is a buy leg
(`legKey === 'callBuy' || legKey === 'putBuy'`). -/
def isBuyKey : LegKey → Bool
  | .callBuy => true
  | .putBuy => true
  | _ => false

/-- The leg-pnl refresh loop of `monitorPosition`: iterate over
`pos.activeLegs`, skip legs with a falsy quote or non-ACTIVE status,
set `currentPremium` and the rounded leg pnl, and accumulate the raw
total pnl. -/
def updateLegs : Position → List LegKey → (LegKey → ℚ) → Position × ℚ
  | pos, [], _ => (pos, 0)
  | pos, k :: ks, prem =>
      let leg := pos.leg k
      let ltp := prem k
      if ltp ≠ 0 ∧ leg.status = .ACTIVE then
        let pnl := if isBuyKey k then (ltp - leg.entryPremium) * LOT_SIZE
                   else (leg.entryPremium - ltp) * LOT_SIZE
        let pos1 := pos.setLeg k { leg with currentPremium := ltp, pnl := round2 pnl }
        let rest := updateLegs pos1 ks prem
        (rest.1, pnl + rest.2)
      else
        updateLegs pos ks prem

/-- The four individual leg stop checks of `monitorPosition`, in
source order, producing their `EXIT_LEGS` actions. Buy legs trigger at
a quote at or below their stop and pull their paired sell leg; sell
legs trigger at a quote at or above their stop and exit alone. -/
def legSLActions (pos : Position) (prem : LegKey → ℚ) : List Action :=
  (if pos.callBuy.status = .ACTIVE ∧ prem .callBuy ≠ 0 ∧ prem .callBuy ≤ pos.callBuy.sl
   then [⟨.EXIT_LEGS, [.callBuy, .callSell], .CALL_BUY_SL⟩] else []) ++
  (if pos.putBuy.status = .ACTIVE ∧ prem .putBuy ≠ 0 ∧ prem .putBuy ≤ pos.putBuy.sl
   then [⟨.EXIT_LEGS, [.putBuy, .putSell], .PUT_BUY_SL⟩] else []) ++
  (if pos.callSell.status = .ACTIVE ∧ prem .callSell ≠ 0 ∧ pos.callSell.sl ≤ prem .callSell
   then [⟨.EXIT_LEGS, [.callSell], .CALL_SELL_SL⟩] else []) ++
  (if pos.putSell.status = .ACTIVE ∧ prem .putSell ≠ 0 ∧ pos.putSell.sl ≤ prem .putSell
   then [⟨.EXIT_LEGS, [.putSell], .PUT_SELL_SL⟩] else [])

/-- The step-table search of the last-buy-leg branch:
`CONFIG.TRAIL_LEVELS.find((l, i) =&gt; i &gt;= pos.trailLevel &amp;&amp;
legPnl &gt;= l.profit)`, returning the found index and its
(profit, lock) pair. -/
def findLevel (lvl : ℕ) (legPnl : ℚ) : Option (ℕ × ℚ × ℚ) :=
  (TRAIL_LEVELS.enum.find? (fun p => lvl ≤ p.1 ∧ p.2.1 ≤ legPnl)).map
    (fun p => (p.1, p.2.1, p.2.2))

/-- The step-table advance of the last-buy-leg branch: when a level
at or beyond the current cursor is reached by the leg pnl, move the
cursor past it, set the locked profit to its lock and the trailSL to
entryPremium plus lock over lot, and push the TRAIL_UPDATE alert. -/
def advanceTrail (entry legPnl : ℚ) (pos1 : Position) : Position × List AlertType :=
  match findLevel pos1.trailLevel legPnl with
  | some (i, _, lock) =>
      ({ pos1 with
          trailLevel := i + 1
          lockedProfit := lock
          trailSL := some (round2 (entry + lock / LOT_SIZE)) }, [.TRAIL_UPDATE])
  | none => (pos1, [])

/-- The last-buy-leg trailing branch of `monitorPosition`. Takes the
position after the pnl refresh and returns the updated position with
the alerts and actions the branch pushes. -/
def lastLegStep (pos : Position) (k : LegKey) (prem : LegKey → ℚ) :
    Position × List AlertType × List Action :=
  let leg := pos.leg k
  let ltp := prem k
  if ltp ≠ 0 ∧ leg.status = .ACTIVE then
    let legPnl := (ltp - leg.entryPremium) * LOT_SIZE
    let pos1 := ({ pos with pnl := round2 legPnl }).setLeg k { leg with pnl := round2 legPnl }
    let adv := advanceTrail leg.entryPremium legPnl pos1
    let pos2 := adv.1
    let upAlerts := adv.2
    let hit : Bool := match pos2.trailSL with
      | some t => decide (t ≠ 0 ∧ ltp ≤ t)
      | none => false
    if hit then
      (pos2, upAlerts ++ [.TRAIL_SL_HIT], [⟨.EXIT_LEGS, [k], .TRAIL_SL_HIT⟩])
    else
      (pos2, upAlerts, [])
  else
    (pos, [], [])

/-- `DeltaNeutralStrategy.monitorPosition`: refresh active-leg pnls
and the aggregate, run the combined stop (which returns immediately),
then the individual leg stops (only with more than one active leg and
no last buy leg), then the last-buy-leg trailing logic; returns the
updated position with the pushed alerts and actions, or none when the
position is IDLE or CLOSED. -/
def monitorPosition (pos : Position) (prem : LegKey → ℚ) :
    Option (Position × List AlertType × List Action) :=
  if pos.status = .IDLE ∨ pos.status = .CLOSED then none
  else
    let upd := updateLegs pos pos.activeLegs prem
    let totalPnl := upd.2
    let pos1 := { upd.1 with pnl := round2 totalPnl }
    if totalPnl ≤ -pos1.combinedSL ∧ 1 < pos1.activeLegs.length then
      some (pos1, [.COMBINED_SL], [⟨.EXIT_ALL, [], .COMBINED_SL⟩])
    else
      let slActs :=
        if 1 < pos1.activeLegs.length ∧ pos1.lastBuyLeg = none
        then legSLActions pos1 prem else []
      match pos1.lastBuyLeg with
      | none => some (pos1, slActs.map Action.reason, slActs)
      | some k =>
          let t := lastLegStep pos1 k prem
          some (t.1, slActs.map Action.reason ++ t.2.1, slActs ++ t.2.2)

/-- Sum of the pnl of all four legs of a position, CLOSED legs (whose
pnl is frozen at exit) included. -/
def sumLegPnl (pos : Position) : ℚ :=
  pos.callBuy.pnl + pos.callSell.pnl + pos.putBuy.pnl + pos.putSell.pnl

/-- `DeltaNeutralStrategy.closeLegs`: mark the listed legs CLOSED,
remove them from `activeLegs`, and enter last-buy-leg (PARTIAL) mode
when exactly one buy leg and no sell leg remains. -/
def closeLegs (pos : Position) (keys : List LegKey) : Position :=
  let pos1 := keys.foldl (fun p k =>
    let p1 := p.setLeg k { p.leg k with status := .CLOSED }
    { p1 with activeLegs := p1.activeLegs.filter (fun x => x ≠ k) }) pos
  let remBuys := pos1.activeLegs.filter (fun k => k = .callBuy ∨ k = .putBuy)
  let remSells := pos1.activeLegs.filter (fun k => k = .callSell ∨ k = .putSell)
  if remBuys.length = 1 ∧ remSells.length = 0 then
    { pos1 with
        lastBuyLeg := some remBuys.headI
        status := .PARTIAL }
  else
    pos1

end DN10

namespace DN8

/-!
The trailing logic of `DeltaNeutralEngine._checkTrail` (the weekly
SENSEX engine): a descending scan of a fixed eight-entry step table
maps the last buy leg's pnl to a locked amount, the position's
`trailSL` (initialized null, modelled as 0) and `lockedProfit` are
raised to it only when it is strictly larger, the replaced trail SL-M
order's trigger price is entryPremium plus locked/20, and the leg is
exited with reason Trail SL Hit when trailSL is positive and the leg
pnl is at or below trailSL.
-/

/-- The `levels`/`locks` arrays of `_checkTrail`, zipped. -/
def lockTable : List (ℚ × ℚ) :=
  [(1000, 250), (2000, 1000), (3000, 1750), (4000, 2500),
   (5000, 3250), (6000, 4000), (7000, 4750), (8000, 5500)]

/-- The descending scan `for (i = levels.length - 1; i &gt;= 0; i--)`:
the lock of the highest level the pnl has reached, 0 below the first
level. -/
def lockFor (legPnl : ℚ) : ℚ :=
  ((lockTable.reverse.find? (fun p => p.1 ≤ legPnl)).map Prod.snd).getD 0

/-- Trailing state kept on the engine position (`trailSL` in rupees;
the initial null is modelled as 0, matching the `|| 0` and the
strictly-positive check in the source). -/
structure TrailState where
  trailSL : ℚ
  lockedProfit : ℚ
deriving DecidableEq, Repr

/-- Result of one `_checkTrail` evaluation: the new trailing state,
the trigger price of the replaced trail SL order when the lock moved
up, and whether the trail stop fired (reason Trail SL Hit). -/
structure TrailResult where
  st : TrailState
  trigger : Option ℚ
  exited : Bool
deriving DecidableEq, Repr

/-- One `_checkTrail` evaluation in last-buy-leg mode, given the
leg's entry premium and current pnl in rupees. -/
def checkTrailStep (entryPremium legPnl : ℚ) (st : TrailState) : TrailResult :=
  let locked := lockFor legPnl
  if st.trailSL < locked then
    let st1 : TrailState := ⟨locked, locked⟩
    ⟨st1, some (entryPremium + locked / 20),
      decide (0 < st1.trailSL ∧ legPnl ≤ st1.trailSL)⟩
  else
    ⟨st, none, decide (0 < st.trailSL ∧ legPnl ≤ st.trailSL)⟩

end DN8

namespace DN11

/-!
`DeltaNeutralStrategy.updateMTM` of the MongoDB-backed strategy
variant: per-unit leg pnls are refreshed for ACTIVE legs with a
truthy live premium, every leg's pnl (frozen legs included) is summed
into totalMTM, and the position aggregate is totalMTM times the lot
size. The sampled fire-and-forget persistence write
(Math.random() based) does not touch the returned state and is not
modelled. -/

/-- Lot size (`CONFIG.SENSEX.LOT_SIZE`). -/
def LOT_SIZE : ℚ := 20

/-- One leg: side, premiums and per-unit pnl. -/
structure Leg where
  status : LegStatus
  side : Side
  entryPremium : ℚ
  currentPremium : ℚ
  peakPremium : ℚ
  pnl : ℚ
deriving DecidableEq, Repr

/-- The position of this strategy variant. -/
structure Position where
  status : PosStatus
  callBuy : Leg
  callSell : Leg
  putBuy : Leg
  putSell : Leg
  currentMTM : ℚ
  pnl : ℚ
deriving DecidableEq, Repr

/-- Per-leg refresh inside the `updateMTM` loop. -/
def updLeg (leg : Leg) (ltp : ℚ) : Leg :=
  if leg.status = .ACTIVE ∧ ltp ≠ 0 then
    let pnl := if leg.side = .buy then ltp - leg.entryPremium else leg.entryPremium - ltp
    let peak := if leg.side = .buy ∧ leg.peakPremium < ltp then ltp else leg.peakPremium
    { leg with currentPremium := ltp, pnl := pnl, peakPremium := peak }
  else leg

/-- `DeltaNeutralStrategy.updateMTM`: none unless the position is
ACTIVE; otherwise refresh each leg and set both `currentMTM` and
`pnl` to the sum of all four legs' pnl times the lot size. -/
def updateMTM (pos : Position) (prem : LegKey → ℚ) : Option Position :=
  if pos.status = .ACTIVE then
    let cb := updLeg pos.callBuy (prem .callBuy)
    let cs := updLeg pos.callSell (prem .callSell)
    let pb := updLeg pos.putBuy (prem .putBuy)
    let ps := updLeg pos.putSell (prem .putSell)
    let totalMTM := cb.pnl + cs.pnl + pb.pnl + ps.pnl
    some { pos with
            callBuy := cb
            callSell := cs
            putBuy := pb
            putSell := ps
            currentMTM := totalMTM * LOT_SIZE
            pnl := totalMTM * LOT_SIZE }
  else none

/-- Sum of the per-unit pnl of all four legs, frozen CLOSED legs
included. -/
def sumLegPnl (pos : Position) : ℚ :=
  pos.callBuy.pnl + pos.callSell.pnl + pos.putBuy.pnl + pos.putSell.pnl

end DN11

/-- Quote map of the trailing scene: the last buy leg (putBuy) trades
at 260, all other keys are absent (falsy). -/
def trailPrem : LegKey → ℚ
  | .putBuy => 260
  | _ => 0

/-- Quote map after the premium drop to 187. -/
def trailPremDrop : LegKey → ℚ
  | .putBuy => 187
  | _ => 0

/-- Last-buy-leg position of the trailing scene: putBuy alone is
ACTIVE (entry premium 100), the other three legs are CLOSED with
frozen pnl, and no lock is in place yet. -/
def trailPos0 : DN10.Position :=
  { status := .PARTIAL
    netDebit := 80
    combinedSL := 960
    callBuy := ⟨.CLOSED, 120, 30, 48, -1800⟩
    callSell := ⟨.CLOSED, 80, 20, 128, 1200⟩
    putBuy := ⟨.ACTIVE, 100, 100, 40, 0⟩
    putSell := ⟨.CLOSED, 80, 30, 128, 1000⟩
    activeLegs := [.putBuy]
    lastBuyLeg := some .putBuy
    trailLevel := 0
    lockedProfit := 0
    trailSL := none
    pnl := 0 }

/-- The trailing scene position after the first monitoring tick at a
leg pnl of 3200: one table level consumed, lock 250. -/
def trailPos1 : DN10.Position :=
  { trailPos0 with
      putBuy := ⟨.ACTIVE, 100, 260, 40, 3200⟩
      pnl := 3200
      trailLevel := 1
      lockedProfit := 250
      trailSL := some (225/2) }

/-- After the second tick: lock 1000. -/
def trailPos2 : DN10.Position :=
  { trailPos1 with
      trailLevel := 2
      lockedProfit := 1000
      trailSL := some 150 }

/-- After the third tick: lock 1750, trail stop premium 187.5. -/
def trailPos3 : DN10.Position :=
  { trailPos2 with
      trailLevel := 3
      lockedProfit := 1750
      trailSL := some (375/2) }

/-- After the premium drop to 187 (leg pnl 1740): the trail stop
fires. -/
def trailPos4 : DN10.Position :=
  { trailPos3 with
      putBuy := ⟨.ACTIVE, 100, 187, 40, 1740⟩
      pnl := 1740 }

/-- Claim C4: as stated the claim fails on the code. In
`DeltaNeutralStrategy.monitorPosition` (the strategy holding the
`trailLevel` cursor) the step-table search starts at the current
level index and the first tick with leg pnl 3200 therefore locks only
250 with trailSL 112.5, not 1750 with trailSL 187.5 as the claim
asserts for a single tick. -/
theorem C4_counterexample :
    DN10.monitorPosition trailPos0 trailPrem =
      some (trailPos1, [.TRAIL_UPDATE], []) ∧
    trailPos1.lockedProfit = 250 ∧ trailPos1.trailSL = some (225/2) ∧
    ¬ (trailPos1.lockedProfit = 1750 ∧ trailPos1.trailSL = some (375/2)) := by
  refine ⟨?_, by norm_num [trailPos1, trailPos0], by norm_num [trailPos1, trailPos0],
    by norm_num [trailPos1, trailPos0]⟩
  norm_num [DN10.monitorPosition, DN10.updateLegs, DN10.legSLActions, DN10.lastLegStep, DN10.advanceTrail,
    DN10.findLevel, DN10.TRAIL_LEVELS, DN10.LOT_SIZE, DN10.isBuyKey,
    DN10.Position.leg, DN10.Position.setLeg, round2,
    List.enum, List.enumFrom, List.find?, trailPos0, trailPos1, trailPrem]
  rintro (h | h) <;> exact absurd h (by decide)

namespace DN10

/-- `setLeg` does not touch `activeLegs`. -/
theorem setLeg_activeLegs (p : Position) (k : LegKey) (l : Leg) :
    (p.setLeg k l).activeLegs = p.activeLegs := by
  cases k <;> rfl

/-- `setLeg` does not touch `lastBuyLeg`. -/
theorem setLeg_lastBuyLeg (p : Position) (k : LegKey) (l : Leg) :
    (p.setLeg k l).lastBuyLeg = p.lastBuyLeg := by
  cases k <;> rfl

/-- `setLeg` does not touch `trailLevel`. -/
theorem setLeg_trailLevel (p : Position) (k : LegKey) (l : Leg) :
    (p.setLeg k l).trailLevel = p.trailLevel := by
  cases k <;> rfl

/-- The leg refresh loop does not touch `activeLegs`. -/
theorem updateLegs_activeLegs :
    ∀ (ks : List LegKey) (pos : Position) (prem : LegKey → ℚ),
      (updateLegs pos ks prem).1.activeLegs = pos.activeLegs := by
  intro ks
  induction ks with
  | nil => intro pos prem; rfl
  | cons k ks ih =>
      intro pos prem
      simp only [updateLegs]
      split_ifs with h <;> simp [ih, setLeg_activeLegs]

/-- A found trail level sits at or beyond the current level cursor. -/
theorem findLevel_le (lvl : ℕ) (pnl : ℚ) (i : ℕ) (pr lk : ℚ)
    (h : findLevel lvl pnl = some (i, pr, lk)) : lvl ≤ i := by
  unfold findLevel at h
  obtain ⟨q, hq, hmap⟩ := Option.map_eq_some'.mp h
  have hp := List.find?_some hq
  simp only [decide_eq_true_eq] at hp
  have : q.1 = i := by
    have := congrArg Prod.fst hmap
    simpa using this
  omega

/-- The step-table advance never lowers the trail level cursor. -/
theorem advanceTrail_trailLevel (e p : ℚ) (pos1 : Position) :
    pos1.trailLevel ≤ (advanceTrail e p pos1).1.trailLevel := by
  unfold advanceTrail
  rcases hf : findLevel pos1.trailLevel p with _ | ⟨i, pr, lk⟩
  · simp
  · have := findLevel_le _ _ _ _ _ hf
    simp
    omega

/-- The last-buy-leg branch never lowers the trail level cursor. -/
theorem lastLegStep_trailLevel (pos : Position) (k : LegKey) (prem : LegKey → ℚ) :
    pos.trailLevel ≤ (lastLegStep pos k prem).1.trailLevel := by
  simp only [lastLegStep]
  split_ifs with h1 h2
  · refine le_trans (le_of_eq ?_) (advanceTrail_trailLevel ..)
    rw [setLeg_trailLevel]
  · refine le_trans (le_of_eq ?_) (advanceTrail_trailLevel ..)
    rw [setLeg_trailLevel]
  · exact le_refl _

/-- The last-buy-leg branch emits either no action or exactly the
trailing-stop EXIT_LEGS action for that leg. -/
theorem lastLegStep_actions (pos : Position) (k : LegKey) (prem : LegKey → ℚ) :
    (lastLegStep pos k prem).2.2 = [] ∨
    (lastLegStep pos k prem).2.2 = [⟨.EXIT_LEGS, [k], .TRAIL_SL_HIT⟩] := by
  simp only [lastLegStep]
  split_ifs with h1 h2
  · right; rfl
  · left; rfl
  · left; rfl

/-- Every action the last-buy-leg branch emits is an EXIT_LEGS
action. -/
theorem lastLegStep_action_type (pos : Position) (k : LegKey) (prem : LegKey → ℚ)
    (a : Action) (ha : a ∈ (lastLegStep pos k prem).2.2) : a.type = .EXIT_LEGS := by
  rcases lastLegStep_actions pos k prem with h | h <;> rw [h] at ha
  · exact absurd ha (List.not_mem_nil a)
  · simp only [List.mem_singleton] at ha
    rw [ha]

end DN10

/-- Claim C10: in the delta-neutral strategy's `monitorPosition` the
combined-stop EXIT_ALL action is guarded by more than one active leg,
so whenever at most one leg remains active (last-buy-leg mode) no
returned action is an EXIT_ALL, even if the aggregate pnl is at or
below the combined-stop level; only EXIT_LEGS actions (in particular
the trailing-lock exit) can close the last leg. -/
theorem C10_no_combined_exit :
    ∀ (pos : DN10.Position) (prem : LegKey → ℚ)
      (r : DN10.Position × List DN10.AlertType × List DN10.Action),
      pos.activeLegs.length ≤ 1 →
      DN10.monitorPosition pos prem = some r →
      ∀ a ∈ r.2.2, a.type ≠ .EXIT_ALL := by
  intro pos prem r hlen hmon a ha
  have hact : (DN10.updateLegs pos pos.activeLegs prem).1.activeLegs = pos.activeLegs :=
    DN10.updateLegs_activeLegs ..
  simp only [DN10.monitorPosition] at hmon
  split_ifs at hmon with h1 h2 h3
  · exfalso
    have h2' : 1 < pos.activeLegs.length := by simpa [hact] using h2.2
    omega
  · exfalso
    have h3' : 1 < pos.activeLegs.length := by simpa [hact] using h3.1
    omega
  · split at hmon
    · rw [Option.some.injEq] at hmon
      rw [← hmon] at ha
      simp at ha
    · rw [Option.some.injEq] at hmon
      rw [← hmon] at ha
      simp only [List.map_nil, List.nil_append] at ha
      have := DN10.lastLegStep_action_type _ _ _ _ ha
      rw [this]
      intro hc
      cases hc

/-- Last-buy-leg position whose aggregate pnl breaches the
combined-stop level on the next tick. -/
def c10Pos : DN10.Position :=
  { status := .PARTIAL
    netDebit := 80
    combinedSL := 960
    callBuy := ⟨.CLOSED, 120, 30, 48, -1800⟩
    callSell := ⟨.CLOSED, 80, 20, 128, 1200⟩
    putBuy := ⟨.ACTIVE, 100, 100, 40, 0⟩
    putSell := ⟨.CLOSED, 80, 30, 128, 1000⟩
    activeLegs := [.putBuy]
    lastBuyLeg := some .putBuy
    trailLevel := 0
    lockedProfit := 0
    trailSL := none
    pnl := 0 }

/-- Quote map dropping the last leg to 10 (leg pnl -1800, below the
combined-stop level of -960). -/
def c10Prem : LegKey → ℚ
  | .putBuy => 10
  | _ => 0

/-- Expected monitor result for the combined-stop-breach tick in
last-buy-leg mode. -/
def c10Res : DN10.Position × List DN10.AlertType × List DN10.Action :=
  ({ c10Pos with
      putBuy := ⟨.ACTIVE, 100, 10, 40, -1800⟩
      pnl := -1800 }, [], [])

/-- Concrete instantiation: with one active leg and aggregate pnl
-1800 at or below the combined-stop level -960, the tick returns no
EXIT_ALL action. -/
theorem C10_no_combined_exit_witness :
    c10Pos.activeLegs.length ≤ 1 ∧
    DN10.monitorPosition c10Pos c10Prem = some c10Res ∧
    c10Res.1.pnl ≤ -c10Pos.combinedSL ∧
    (∀ a ∈ c10Res.2.2, a.type ≠ .EXIT_ALL) := by
  have hl : c10Pos.activeLegs.length ≤ 1 := by norm_num [c10Pos]
  have hm : DN10.monitorPosition c10Pos c10Prem = some c10Res := by
    norm_num [DN10.monitorPosition, DN10.updateLegs, DN10.legSLActions, DN10.lastLegStep,
      DN10.advanceTrail, DN10.findLevel, DN10.TRAIL_LEVELS, DN10.LOT_SIZE, DN10.isBuyKey,
      DN10.Position.leg, DN10.Position.setLeg, round2,
      List.enum, List.enumFrom, List.find?, c10Pos, c10Res, c10Prem]
    rintro (h | h) <;> exact absurd h (by decide)
  exact ⟨hl, hm, by norm_num [c10Pos, c10Res],
    C10_no_combined_exit c10Pos c10Prem c10Res hl hm⟩

/-- Position with both call legs CLOSED carrying frozen nonzero pnl
(-500 and 300) and both put legs ACTIVE flat at entry. -/
def c6Pos : DN10.Position :=
  { status := .ACTIVE
    netDebit := 80
    combinedSL := 960
    callBuy := ⟨.CLOSED, 120, 30, 48, -500⟩
    callSell := ⟨.CLOSED, 80, 20, 128, 300⟩
    putBuy := ⟨.ACTIVE, 100, 100, 40, 0⟩
    putSell := ⟨.ACTIVE, 80, 80, 128, 0⟩
    activeLegs := [.putBuy, .putSell]
    lastBuyLeg := none
    trailLevel := 0
    lockedProfit := 0
    trailSL := none
    pnl := -200 }

/-- Quotes at entry premiums: both active legs have zero pnl. -/
def c6Prem : LegKey → ℚ
  | .putBuy => 100
  | .putSell => 80
  | _ => 0

/-- The position after the observation tick: only the aggregate was
rewritten, to the active-legs-only sum 0. -/
def c6After : DN10.Position := { c6Pos with pnl := 0 }

/-- Claim C6: as stated the claim fails on the code. In
`DeltaNeutralStrategy.monitorPosition` the aggregate sums only legs
that are in `activeLegs`, ACTIVE and quoted, so after a tick on a
position whose CLOSED call legs carry frozen pnl -500 and 300 the
aggregate is 0 while the sum over all legs is -200. -/
theorem C6_counterexample :
    DN10.monitorPosition c6Pos c6Prem = some (c6After, [], []) ∧
    c6After.pnl = 0 ∧
    DN10.sumLegPnl c6After = -200 ∧
    c6After.pnl ≠ DN10.sumLegPnl c6After := by
  refine ⟨?_, by norm_num [c6After, c6Pos], by norm_num [DN10.sumLegPnl, c6After, c6Pos],
    by norm_num [DN10.sumLegPnl, c6After, c6Pos]⟩
  norm_num [DN10.monitorPosition, DN10.updateLegs, DN10.legSLActions, DN10.lastLegStep,
    DN10.advanceTrail, DN10.findLevel, DN10.TRAIL_LEVELS, DN10.LOT_SIZE, DN10.isBuyKey,
    DN10.Position.leg, DN10.Position.setLeg, round2,
    List.enum, List.enumFrom, List.find?, c6Pos, c6After, c6Prem]
  rintro (h | h) <;> exact absurd h (by decide)

/-- Claim C6 (amended): the all-legs aggregation holds in the
MongoDB-backed strategy's `updateMTM`, where the position pnl equals
the lot size times the sum of every leg's per-unit pnl, frozen CLOSED
legs included; in the `monitorPosition` strategy variant the
aggregate instead sums only active quoted legs, excluding frozen
CLOSED-leg pnl (at the observation above the aggregate is 0 while the
calls carry frozen pnl -500 and 300). -/
theorem C6_pnl_aggregation :
    (∀ (pos : DN11.Position) (prem : LegKey → ℚ) (pos' : DN11.Position),
      DN11.updateMTM pos prem = some pos' →
      pos'.pnl = DN11.LOT_SIZE * DN11.sumLegPnl pos') ∧
    (DN10.monitorPosition c6Pos c6Prem = some (c6After, [], []) ∧
     c6After.callBuy.pnl = -500 ∧ c6After.callSell.pnl = 300 ∧ c6After.pnl = 0) := by
  constructor
  · intro pos prem pos' h
    simp only [DN11.updateMTM] at h
    split_ifs at h with h1
    · rw [Option.some.injEq] at h
      rw [← h]
      simp only [DN11.sumLegPnl]
      ring
  · refine ⟨?_, by norm_num [c6After, c6Pos], by norm_num [c6After, c6Pos],
      by norm_num [c6After, c6Pos]⟩
    norm_num [DN10.monitorPosition, DN10.updateLegs, DN10.legSLActions, DN10.lastLegStep,
      DN10.advanceTrail, DN10.findLevel, DN10.TRAIL_LEVELS, DN10.LOT_SIZE, DN10.isBuyKey,
      DN10.Position.leg, DN10.Position.setLeg, round2,
      List.enum, List.enumFrom, List.find?, c6Pos, c6After, c6Prem]
    rintro (h | h) <;> exact absurd h (by decide)

/-- Position for the all-legs aggregation instance: callSell is
CLOSED with frozen pnl 60, the other legs ACTIVE. -/
def c6Pos11 : DN11.Position :=
  { status := .ACTIVE
    callBuy := ⟨.ACTIVE, .buy, 120, 120, 120, 0⟩
    callSell := ⟨.CLOSED, .sell, 80, 20, 80, 60⟩
    putBuy := ⟨.ACTIVE, .buy, 120, 120, 120, 0⟩
    putSell := ⟨.ACTIVE, .sell, 80, 80, 80, 0⟩
    currentMTM := 0
    pnl := 0 }

/-- Live quotes for the aggregation instance (callSell absent). -/
def c6Prem11 : LegKey → ℚ
  | .callBuy => 130
  | .putBuy => 110
  | .putSell => 70
  | _ => 0

/-- Expected `updateMTM` output: per-unit pnls 10, 60 (frozen), -10,
10; aggregate 20 times 70. -/
def c6After11 : DN11.Position :=
  { c6Pos11 with
      callBuy := ⟨.ACTIVE, .buy, 120, 130, 130, 10⟩
      putBuy := ⟨.ACTIVE, .buy, 120, 110, 120, -10⟩
      putSell := ⟨.ACTIVE, .sell, 80, 70, 80, 10⟩
      currentMTM := 1400
      pnl := 1400 }

/-- Concrete instantiation of the `updateMTM` all-legs aggregation,
the frozen CLOSED leg's pnl included in the sum. -/
theorem C6_pnl_aggregation_witness :
    DN11.updateMTM c6Pos11 c6Prem11 = some c6After11 ∧
    c6After11.pnl = DN11.LOT_SIZE * DN11.sumLegPnl c6After11 := by
  have h : DN11.updateMTM c6Pos11 c6Prem11 = some c6After11 := by
    norm_num [DN11.updateMTM, DN11.updLeg, DN11.LOT_SIZE, c6Pos11, c6Prem11, c6After11,
      closed_eq_active_false, sell_eq_buy_false]
  exact ⟨h, C6_pnl_aggregation.1 c6Pos11 c6Prem11 c6After11 h⟩

/-- Claim C4 (amended): once exactly one BUY leg survives with no
SELL leg active, the locked floor never decreases across ticks: in
`DeltaNeutralEngine._checkTrail` the lock and trailSL are raised only
when the table value is strictly larger, and in
`DeltaNeutralStrategy.monitorPosition` the level cursor only
advances. With lot 20 and entryPremium 100, a single `_checkTrail`
tick at leg pnl 3200 locks 1750 with a trail order trigger premium of
187.5, and a later tick with the premium at 187 (leg pnl 1740, at or
below the 1750 floor) exits with reason Trail SL Hit; in
`monitorPosition` the same pnl advances the lock one table step per
tick (250, 1000, then 1750 with trailSL premium 187.5 after three
ticks), after which the premium drop to 187 triggers the
TRAIL_SL_HIT exit action for the last leg. -/
theorem C4_trailing_lock :
    (∀ (e pnl : ℚ) (st : DN8.TrailState),
      st.trailSL ≤ (DN8.checkTrailStep e pnl st).st.trailSL) ∧
    (∀ (pos : DN10.Position) (k : LegKey) (prem : LegKey → ℚ),
      pos.trailLevel ≤ (DN10.lastLegStep pos k prem).1.trailLevel) ∧
    DN8.checkTrailStep 100 3200 ⟨0, 0⟩ = ⟨⟨1750, 1750⟩, some (375/2), false⟩ ∧
    DN8.checkTrailStep 100 1740 ⟨1750, 1750⟩ = ⟨⟨1750, 1750⟩, none, true⟩ ∧
    DN10.monitorPosition trailPos1 trailPrem = some (trailPos2, [.TRAIL_UPDATE], []) ∧
    DN10.monitorPosition trailPos2 trailPrem = some (trailPos3, [.TRAIL_UPDATE], []) ∧
    trailPos3.lockedProfit = 1750 ∧ trailPos3.trailSL = some (375/2) ∧
    DN10.monitorPosition trailPos3 trailPremDrop =
      some (trailPos4, [.TRAIL_SL_HIT], [⟨.EXIT_LEGS, [.putBuy], .TRAIL_SL_HIT⟩]) := by
  refine ⟨?_, DN10.lastLegStep_trailLevel, ?_, ?_, ?_, ?_, by norm_num [trailPos3, trailPos2, trailPos1, trailPos0], by norm_num [trailPos3, trailPos2, trailPos1, trailPos0], ?_⟩
  · intro e pnl st
    simp only [DN8.checkTrailStep]
    split_ifs with h
    · simpa using le_of_lt h
    · simp
  · norm_num [DN8.checkTrailStep, DN8.lockFor, DN8.lockTable]
  · norm_num [DN8.checkTrailStep, DN8.lockFor, DN8.lockTable]
  all_goals
    norm_num [DN10.monitorPosition, DN10.updateLegs, DN10.legSLActions, DN10.lastLegStep, DN10.advanceTrail,
      DN10.findLevel, DN10.TRAIL_LEVELS, DN10.LOT_SIZE, DN10.isBuyKey,
      DN10.Position.leg, DN10.Position.setLeg, round2,
      List.enum, List.enumFrom, List.find?, trailPos0, trailPos1, trailPos2, trailPos3,
      trailPos4, trailPrem, trailPremDrop]
  all_goals rintro (h | h) <;> exact absurd h (by decide)

namespace IC

/-!
`IronCondorEngine.closePosition`: guarded by the IDLE check, archives
a snapshot to the in-memory history and resets the slot to the empty
(IDLE) position. The position is modelled by the fields the operation
reads and writes (status and pnl); the closeReason string, dates and
spread payloads are omitted.
-/

/-- Minimal engine position slot. -/
structure EnginePos where
  status : PosStatus
  pnl : ℚ
deriving DecidableEq, Repr

/-- `_emptyPos`: an IDLE slot. -/
def emptyPos : EnginePos := ⟨.IDLE, 0⟩

/-- A history entry: the closed snapshot with the final pnl
(`pnl ?? pos.pnl`). -/
structure ClosedTrade where
  snapshot : EnginePos
  pnl : ℚ
deriving DecidableEq, Repr

/-- One index slot plus the engine history. -/
structure EngineState where
  pos : EnginePos
  history : List ClosedTrade
deriving DecidableEq, Repr

/-- `IronCondorEngine.closePosition`: no-op on an IDLE slot,
otherwise push the snapshot and reset the slot. -/
def closePositionE (st : EngineState) (pnl : Option ℚ) : EngineState :=
  if st.pos.status = .IDLE then st
  else
    { pos := emptyPos
      history := st.history ++ [⟨st.pos, pnl.getD st.pos.pnl⟩] }

end IC

namespace ICS

/-!
`IronCondorStrategy` (strategies module): `closePosition` and
`openPosition`. `closePosition` has no status guard: it marks the
slot CLOSED with the final pnl, pushes the snapshot into
tradeHistory, and resets the slot to the empty position. The
closeReason/closeTime strings are omitted.
-/

/-- Minimal strategy position slot (status and pnl). -/
structure SPos where
  status : PosStatus
  pnl : ℚ
deriving DecidableEq, Repr

/-- `emptyPosition`: an IDLE slot. -/
def emptyPosition : SPos := ⟨.IDLE, 0⟩

/-- Strategy slot plus tradeHistory. -/
structure State where
  pos : SPos
  history : List SPos
deriving DecidableEq, Repr

/-- `IronCondorStrategy.closePosition`: unconditionally mark CLOSED
with the final pnl, push the snapshot, reset the slot. -/
def closePositionS (st : State) (finalPnl : ℚ) : State :=
  let closed : SPos := { status := .CLOSED, pnl := finalPnl }
  { pos := emptyPosition
    history := st.history ++ [closed] }

/-- Iron-condor per-index configuration (the fields `openPosition`
reads). -/
structure ICConfig where
  STRIKE_INTERVAL : ℚ
  SPREAD_WIDTH : ℚ
  ONE_PERCENT : ℚ
deriving DecidableEq, Repr

/-- The NIFTY configuration (interval 50, width 150, one percent 12,
so the combined target credit is 24). -/
def NIFTY_CFG : ICConfig := ⟨50, 150, 12⟩

/-- `CONFIG.CAPITAL` default. -/
def CAPITAL : ℚ := 100000

/-- The four quoted premiums passed to `openPosition`. -/
structure Premiums where
  callSell : ℚ
  callBuy : ℚ
  putSell : ℚ
  putBuy : ℚ
deriving DecidableEq, Repr

/-- `calculateStrikes`: sell strikes 0.5 percent OTM rounded outward
to the strike interval, buy strikes one spread width beyond. Returns
(callSell, callBuy, putSell, putBuy) strikes. -/
def calculateStrikes (cfg : ICConfig) (spot : ℚ) : ℚ × ℚ × ℚ × ℚ :=
  let callSellStrike := (⌈spot * (1005/1000) / cfg.STRIKE_INTERVAL⌉ : ℚ) * cfg.STRIKE_INTERVAL
  let putSellStrike := (⌊spot * (995/1000) / cfg.STRIKE_INTERVAL⌋ : ℚ) * cfg.STRIKE_INTERVAL
  (callSellStrike, callSellStrike + cfg.SPREAD_WIDTH,
   putSellStrike, putSellStrike - cfg.SPREAD_WIDTH)

/-- The combined entry credit `openPosition` computes from the
premiums (each side's net credit rounded to two decimals, then the
sum rounded again). -/
def totalCreditOf (pm : Premiums) : ℚ :=
  round2 (round2 (pm.callSell - pm.callBuy) + round2 (pm.putSell - pm.putBuy))

/-- The opened position record (the fields relevant to the entry
gate; legs carry the strikes from `calculateStrikes`). -/
structure ICOpenPos where
  status : PosStatus
  strikes : ℚ × ℚ × ℚ × ℚ
  totalCredit : ℚ
  maxLoss : ℚ
  maxLossPct : ℚ
deriving DecidableEq, Repr

/-- `IronCondorStrategy.openPosition`: rejects the entry (returns
none, slot untouched) when the combined credit is below 0.8 times the
target credit (targetCredit is ONE_PERCENT times 2); otherwise builds
and installs the ACTIVE position. Returns the result and the slot
after the call. -/
def openPositionIC (cfg : ICConfig) (spot : ℚ) (pm : Premiums) (slot : ICOpenPos) :
    Option ICOpenPos × ICOpenPos :=
  let strikes := calculateStrikes cfg spot
  let totalCredit := totalCreditOf pm
  let targetCredit := cfg.ONE_PERCENT * 2
  if totalCredit < targetCredit * (4/5) then (none, slot)
  else
    let maxLoss := round2 (cfg.SPREAD_WIDTH - totalCredit)
    let maxLossPct := round2 (maxLoss / CAPITAL * 100)
    let newPos : ICOpenPos := ⟨.ACTIVE, strikes, totalCredit, maxLoss, maxLossPct⟩
    (some newPos, newPos)

end ICS

/-- A slot with an ACTIVE position about to be closed. -/
def c7St0 : ICS.State := { pos := ⟨.ACTIVE, 0⟩, history := [] }

/-- Claim C7: as stated the claim fails on the code.
`IronCondorStrategy.closePosition` has no IDLE/CLOSED guard, so a
second call on the already archived-and-reset slot mutates state
again and appends a second tradeHistory entry. -/
theorem C7_counterexample :
    (ICS.closePositionS c7St0 500).history.length = 1 ∧
    (ICS.closePositionS (ICS.closePositionS c7St0 500) 500).history.length = 2 ∧
    ICS.closePositionS (ICS.closePositionS c7St0 500) 500 ≠ ICS.closePositionS c7St0 500 := by
  refine ⟨rfl, rfl, ?_⟩
  intro h
  have := congrArg (fun s => s.history.length) h
  simp [ICS.closePositionS, c7St0] at this

/-- Claim C7 (amended): `IronCondorEngine.closePosition` is guarded
on the IDLE (archived-and-reset) slot, so closing twice equals
closing once and a second call appends no second history entry;
`IronCondorStrategy.closePosition`, however, has no guard and a
second call appends another (empty-slot) ledger entry. -/
theorem C7_close_idempotent :
    (∀ (st : IC.EngineState) (p p2 : Option ℚ),
      IC.closePositionE (IC.closePositionE st p) p2 = IC.closePositionE st p) ∧
    (∀ st : IC.EngineState, st.pos.status = .IDLE →
      ∀ p : Option ℚ, IC.closePositionE st p = st) ∧
    (ICS.closePositionS (ICS.closePositionS c7St0 500) 500).history.length = 2 := by
  refine ⟨?_, ?_, rfl⟩
  · intro st p p2
    by_cases h : st.pos.status = .IDLE
    · simp [IC.closePositionE, h]
    · simp [IC.closePositionE, h, IC.emptyPos]
  · intro st h p
    simp [IC.closePositionE, h]

/-- Concrete instantiation of the engine-side no-op: closing an IDLE
slot changes nothing. -/
theorem C7_close_idempotent_witness :
    IC.closePositionE ⟨IC.emptyPos, []⟩ none = ⟨IC.emptyPos, []⟩ :=
  C7_close_idempotent.2.1 ⟨IC.emptyPos, []⟩ rfl none

namespace BT12

/-!
The iron-condor backtest script's `simulateTrade` entry gate. The
script derives the sell premiums through `simulatePremium` (a float
formula with a square root); those two premiums are taken as inputs
here, and the rest of the gate follows the source: hedge premiums at
35 percent of the sell premiums (rounded to two decimals), per-side
net credits and the combined credit (rounded), and rejection (null)
when the combined credit is below 0.8 times the configured target
credit. -/

/-- The per-index backtest configuration fields the gate reads. -/
structure Cfg where
  SPREAD_WIDTH : ℚ
  TARGET_CREDIT : ℚ
deriving DecidableEq, Repr

/-- The NIFTY backtest configuration: target credit 12. -/
def NIFTY : Cfg := ⟨150, 12⟩

/-- The combined-credit gate of `simulateTrade`: none below 0.8 times
the target, otherwise the combined credit. -/
def simTradeGate (cfg : Cfg) (callSell putSell : ℚ) : Option ℚ :=
  let callBuy := round2 (callSell * (7/20))
  let putBuy := round2 (putSell * (7/20))
  let callNet := round2 (callSell - callBuy)
  let putNet := round2 (putSell - putBuy)
  let totalCredit := round2 (callNet + putNet)
  if totalCredit < cfg.TARGET_CREDIT * (4/5) then none else some totalCredit

end BT12

/-- Premiums whose combined computed credit is exactly 6. -/
def c9Prem : ICS.Premiums := ⟨462/100, 162/100, 462/100, 162/100⟩

/-- An IDLE slot awaiting entry. -/
def c9Slot : ICS.ICOpenPos := ⟨.IDLE, (0, 0, 0, 0), 0, 0, 0⟩

/-- Claim C9: `openPosition` rejects the entry and leaves the slot
untouched whenever the combined computed credit is below 0.8 times
the configured target credit (ONE_PERCENT times 2); and in the
backtest's `simulateTrade`, with the NIFTY target credit 12
(threshold 9.6) a combined credit of 6 is rejected (null). -/
theorem C9_entry_rejection :
    (∀ (cfg : ICS.ICConfig) (spot : ℚ) (pm : ICS.Premiums) (slot : ICS.ICOpenPos),
      ICS.totalCreditOf pm < cfg.ONE_PERCENT * 2 * (4/5) →
      (ICS.openPositionIC cfg spot pm slot).1 = none ∧
      (ICS.openPositionIC cfg spot pm slot).2 = slot) ∧
    BT12.NIFTY.TARGET_CREDIT * (4/5) = 96/10 ∧
    BT12.simTradeGate BT12.NIFTY (462/100) (462/100) = none := by
  refine ⟨?_, by norm_num [BT12.NIFTY], ?_⟩
  · intro cfg spot pm slot h
    simp only [ICS.openPositionIC]
    rw [if_pos h]
    exact ⟨rfl, rfl⟩
  · norm_num [BT12.simTradeGate, BT12.NIFTY, round2]

/-- Concrete instantiation: combined credit 6 against the NIFTY
strategy configuration (target 24, threshold 19.2) rejects the entry
and the slot stays IDLE. -/
theorem C9_entry_rejection_witness :
    ICS.totalCreditOf c9Prem = 6 ∧
    (ICS.openPositionIC ICS.NIFTY_CFG 24000 c9Prem c9Slot).1 = none ∧
    (ICS.openPositionIC ICS.NIFTY_CFG 24000 c9Prem c9Slot).2 = c9Slot ∧
    c9Slot.status = .IDLE := by
  have hc : ICS.totalCreditOf c9Prem = 6 := by
    norm_num [ICS.totalCreditOf, c9Prem, round2]
  have h := C9_entry_rejection.1 ICS.NIFTY_CFG 24000 c9Prem c9Slot
    (by rw [hc]; norm_num [ICS.NIFTY_CFG])
  exact ⟨hc, h.1, h.2, rfl⟩

namespace BT

/-!
The delta-neutral backtest harness (the MongoDB-candle variant of
backtestDeltaNeutral.js). Candles carry the day of week, the time of
day in minutes and an abstract date label: the source derives these
from the candle's ISO date string (getDay and substring), and its
zero-padded HH:MM string comparisons coincide with minute-number
comparisons. The stats object mirrors the source's assembly; the
Sharpe-like ratio (a float square root), the monthly map and the
close-reason histogram — all pure functions of the trade list — are
omitted. The wall-clock read new Date().toISOString() stamped into
lastUpdated is modelled by the `now` argument. -/

/-- Lot size. -/
def LOT_SIZE : ℚ := 20
/-- Entry day (Friday). -/
def ENTRY_DAY : ℕ := 5
/-- Entry time, 15:20, in minutes. -/
def ENTRY_TIME : ℕ := 15 * 60 + 20
/-- Exit day (Monday). -/
def EXIT_DAY : ℕ := 1
/-- Exit time, 15:20, in minutes. -/
def EXIT_TIME : ℕ := 15 * 60 + 20
/-- Buy-leg stop fraction. -/
def LEG_SL_PCT : ℚ := 3/5
/-- Sell-leg stop fraction. -/
def SELL_SL_PCT : ℚ := 3/5
/-- Combined stop fraction. -/
def NET_SL_PCT : ℚ := 3/5
/-- Simulated entry premium of the call buy leg. -/
def CALL_BUY_PREMIUM : ℚ := 120
/-- Simulated entry premium of the put buy leg. -/
def PUT_BUY_PREMIUM : ℚ := 120
/-- Simulated entry premium of the call sell leg. -/
def CALL_SELL_PREMIUM : ℚ := 80
/-- Simulated entry premium of the put sell leg. -/
def PUT_SELL_PREMIUM : ℚ := 80
/-- Net debit per unit (buy premiums minus sell premiums, 80). -/
def NET_DEBIT : ℚ :=
  (CALL_BUY_PREMIUM + PUT_BUY_PREMIUM) - (CALL_SELL_PREMIUM + PUT_SELL_PREMIUM)

/-- One historical candle as the harness reads it. -/
structure Candle where
  day : ℕ
  time : ℕ
  dateLabel : ℕ
  close : ℚ
deriving DecidableEq, Repr

/-- Whether a leg key is a buy leg (the source's includes of Buy). -/
def isBuyLeg : LegKey → Bool
  | .callBuy => true
  | .putBuy => true
  | _ => false

/-- Whether a leg key is a call leg (the source's includes of call). -/
def isCallLeg : LegKey → Bool
  | .callBuy => true
  | .callSell => true
  | _ => false

/-- Entry premium table of the four simulated legs. -/
def basePremium : LegKey → ℚ
  | .callBuy => CALL_BUY_PREMIUM
  | .putBuy => PUT_BUY_PREMIUM
  | .callSell => CALL_SELL_PREMIUM
  | .putSell => PUT_SELL_PREMIUM

/-- `simulatePremiums`: entry premium moved by delta times the spot
move (0.50 for buy legs, 0.40 for sell legs, sign positive for
calls), floored at 0.1. The theta constant computed in the source is
never used there and is not modelled. -/
def simulatePremiums (entrySpot currentSpot : ℚ) (leg : LegKey) : ℚ :=
  let move := currentSpot - entrySpot
  let delta : ℚ := if isBuyLeg leg then 1/2 else 2/5
  let sign : ℚ := if isCallLeg leg then 1 else -1
  max (1/10) (basePremium leg + sign * delta * move)

/-- The descending eight-level lock scan `lockedProfitForPnl`. -/
def lockedProfitForPnl (pnl : ℚ) : ℚ :=
  (([(1000, (250 : ℚ)), (2000, 1000), (3000, 1750), (4000, 2500),
     (5000, 3250), (6000, 4000), (7000, 4750),
     ((8000 : ℚ), 5500)].reverse.find? (fun p => p.1 ≤ pnl)).map Prod.snd).getD 0

/-- One simulated leg: whether it is still open, and the premium at
which it was marked exited. -/
structure SimLeg where
  active : Bool
  exitPremium : Option ℚ
deriving DecidableEq, Repr

/-- The open simulated position. -/
structure SimPos where
  entrySpot : ℚ
  entryDate : ℕ
  callBuy : SimLeg
  callSell : SimLeg
  putBuy : SimLeg
  putSell : SimLeg
  trailSL : Option ℚ
deriving DecidableEq, Repr

/-- Position opened at a Friday 15:20 candle. -/
def initPos (c : Candle) : SimPos :=
  ⟨c.close, c.dateLabel, ⟨true, none⟩, ⟨true, none⟩, ⟨true, none⟩, ⟨true, none⟩, none⟩

/-- The close reasons the harness records. -/
inductive CloseReason
  | combinedSL
  | trailSLHit
  | allLegsExited
  | mondayExit
deriving DecidableEq, Repr

/-- One ledger entry (`closeTrade`): entry date, exit date and time,
entry spot, reason and the rounded pnl in rupees. -/
structure TradeRec where
  date : ℕ
  exitDate : ℕ
  entrySpot : ℚ
  closeReason : CloseReason
  exitTime : ℕ
  pnl : ℚ
deriving DecidableEq, Repr

/-- Build the ledger entry for a close at this candle. -/
def mkTrade (pos : SimPos) (c : Candle) (reason : CloseReason) (pnlRs : ℚ) : TradeRec :=
  ⟨pos.entryDate, c.dateLabel, pos.entrySpot, reason, c.time, roundJS pnlRs⟩

/-- Closing checks run after the leg-stop mutations: all buy legs
exited, then the Monday 15:20 time exit, else keep holding. -/
def tailChecks (pos : SimPos) (c : Candle) (pnlRs : ℚ) (activeBuyCount : ℕ) :
    Option SimPos × Option TradeRec :=
  if activeBuyCount = 0 then (none, some (mkTrade pos c .allLegsExited pnlRs))
  else if c.day = EXIT_DAY ∧ EXIT_TIME ≤ c.time then
    (none, some (mkTrade pos c .mondayExit pnlRs))
  else (some pos, none)

/-- One monitoring candle on an open position: refresh the simulated
premiums, compute the aggregate pnl over active legs, run the
combined stop, the four leg stops (buy pairs then single sells), the
last-buy-leg trailing lock, and the closing checks; returns the
position (none when closed) and the ledger entry when closed. -/
def monitorStep (pos : SimPos) (c : Candle) : Option SimPos × Option TradeRec :=
  let spot := c.close
  let curCB := simulatePremiums pos.entrySpot spot .callBuy
  let curCS := simulatePremiums pos.entrySpot spot .callSell
  let curPB := simulatePremiums pos.entrySpot spot .putBuy
  let curPS := simulatePremiums pos.entrySpot spot .putSell
  let pnlPerUnit :=
    (if pos.callBuy.active then curCB - CALL_BUY_PREMIUM else 0) +
    (if pos.putBuy.active then curPB - PUT_BUY_PREMIUM else 0) +
    (if pos.callSell.active then CALL_SELL_PREMIUM - curCS else 0) +
    (if pos.putSell.active then PUT_SELL_PREMIUM - curPS else 0)
  let pnlRs := pnlPerUnit * LOT_SIZE
  let netDebitRs := NET_DEBIT * LOT_SIZE
  if pnlRs ≤ -(netDebitRs * NET_SL_PCT) then
    (none, some (mkTrade pos c .combinedSL pnlRs))
  else
    let pos1 :=
      if pos.callBuy.active ∧ (curCB - CALL_BUY_PREMIUM) / CALL_BUY_PREMIUM ≤ -LEG_SL_PCT
      then { pos with callBuy := ⟨false, some curCB⟩, callSell := ⟨false, some curCS⟩ }
      else pos
    let pos2 :=
      if pos1.putBuy.active ∧ (curPB - PUT_BUY_PREMIUM) / PUT_BUY_PREMIUM ≤ -LEG_SL_PCT
      then { pos1 with putBuy := ⟨false, some curPB⟩, putSell := ⟨false, some curPS⟩ }
      else pos1
    let pos3 :=
      if pos2.callSell.active ∧ SELL_SL_PCT ≤ (CALL_SELL_PREMIUM - curCS) / CALL_SELL_PREMIUM
      then { pos2 with callSell := ⟨false, some curCS⟩ }
      else pos2
    let pos4 :=
      if pos3.putSell.active ∧ SELL_SL_PCT ≤ (PUT_SELL_PREMIUM - curPS) / PUT_SELL_PREMIUM
      then { pos3 with putSell := ⟨false, some curPS⟩ }
      else pos3
    let activeBuyCount := (if pos4.callBuy.active then 1 else 0) +
      (if pos4.putBuy.active then 1 else 0)
    let activeSellCount := (if pos4.callSell.active then 1 else 0) +
      (if pos4.putSell.active then 1 else 0)
    if activeBuyCount = 1 ∧ activeSellCount = 0 then
      let lastIsCall := pos4.callBuy.active
      let lastCur := if lastIsCall then curCB else curPB
      let entryPrem := if lastIsCall then CALL_BUY_PREMIUM else PUT_BUY_PREMIUM
      let lastLegPnl := (lastCur - entryPrem) * LOT_SIZE
      let locked := lockedProfitForPnl lastLegPnl
      let t1 := if 0 < locked ∧ pos4.trailSL = none then some locked else pos4.trailSL
      let t2 := if t1.getD 0 < locked then some locked else t1
      let pos5 := { pos4 with trailSL := t2 }
      match t2 with
      | some t =>
          if lastLegPnl ≤ t then (none, some (mkTrade pos5 c .trailSLHit pnlRs))
          else tailChecks pos5 c pnlRs activeBuyCount
      | none => tailChecks pos5 c pnlRs activeBuyCount
    else
      tailChecks pos4 c pnlRs activeBuyCount

/-- One candle of the main loop: open on a Friday 15:20 candle when
flat, otherwise monitor the open position, accumulating the ledger. -/
def step (acc : Option SimPos × List TradeRec) (c : Candle) :
    Option SimPos × List TradeRec :=
  match acc.1 with
  | none =>
      if c.day = ENTRY_DAY ∧ c.time = ENTRY_TIME then (some (initPos c), acc.2)
      else (none, acc.2)
  | some pos =>
      let r := monitorStep pos c
      (r.1, acc.2 ++ r.2.toList)

/-- Rounding to one decimal, modelling `parseFloat(x.toFixed(1))`. -/
def round1 (q : ℚ) : ℚ := (⌊q * 10 + 1/2⌋ : ℚ) / 10

/-- The stats object the harness writes (see the namespace note for
the omitted derived fields); `lastUpdated` carries the wall-clock
stamp. -/
structure Stats where
  totalPnl : ℚ
  totalTrades : ℕ
  winRate : ℚ
  winners : ℕ
  losers : ℕ
  avgWin : ℚ
  avgLoss : ℚ
  maxDrawdown : ℚ
  bestTrade : Option TradeRec
  worstTrade : Option TradeRec
  trades : List TradeRec
  lastUpdated : ℕ
deriving DecidableEq, Repr

/-- Stats assembly from the ledger, stamped with the clock value. -/
def mkStats (trades : List TradeRec) (now : ℕ) : Stats :=
  let totalPnl := (trades.map TradeRec.pnl).sum
  let winList := trades.filter (fun t => 0 < t.pnl)
  let lossList := trades.filter (fun t => t.pnl ≤ 0)
  let winRate := if trades.length = 0 then 0
    else round1 ((winList.length : ℚ) / (trades.length : ℚ) * 100)
  let avgWin := if winList.length = 0 then 0
    else roundJS ((winList.map TradeRec.pnl).sum / (winList.length : ℚ))
  let avgLoss := if lossList.length = 0 then 0
    else roundJS ((lossList.map TradeRec.pnl).sum / (lossList.length : ℚ))
  let dd := trades.foldl (fun (st : ℚ × ℚ × ℚ) t =>
      let cum := st.2.2 + t.pnl
      let peak := max st.1 cum
      (peak, max st.2.1 (peak - cum), cum)) (0, 0, 0)
  let bestTrade := trades.foldl (fun b t =>
      match b with
      | none => some t
      | some x => if x.pnl < t.pnl then some t else some x) none
  let worstTrade := trades.foldl (fun w t =>
      match w with
      | none => some t
      | some x => if t.pnl < x.pnl then some t else some x) none
  { totalPnl := totalPnl
    totalTrades := trades.length
    winRate := winRate
    winners := winList.length
    losers := lossList.length
    avgWin := avgWin
    avgLoss := avgLoss
    maxDrawdown := roundJS dd.2.1
    bestTrade := bestTrade
    worstTrade := worstTrade
    trades := trades
    lastUpdated := now }

/-- `runBacktest`: fails (the thrown insufficient-data error) below
50 candles, otherwise folds the candle sequence through the entry and
monitoring logic and assembles the stats. -/
def runBacktest (candles : List Candle) (now : ℕ) : Option Stats :=
  if candles.length < 50 then none
  else
    let final := candles.foldl step ((none : Option SimPos), ([] : List TradeRec))
    some (mkStats final.2 now)

end BT

/-- A non-Friday candle on which the harness never enters. -/
def c8Candle : BT.Candle := ⟨2, 600, 7, 80000⟩

/-- Fifty identical non-entry candles. -/
def c8Candles : List BT.Candle := List.replicate 50 c8Candle

/-- The main loop stays flat across any number of non-entry candles. -/
theorem c8_fold_flat :
    ∀ (n : ℕ) (ts : List BT.TradeRec),
      List.foldl BT.step (none, ts) (List.replicate n c8Candle) = (none, ts) := by
  intro n
  induction n with
  | zero => intro ts; rfl
  | succ n ih =>
      intro ts
      rw [List.replicate_succ, List.foldl_cons]
      have hstep : BT.step (none, ts) c8Candle = (none, ts) := by
        simp [BT.step, c8Candle, BT.ENTRY_DAY, BT.ENTRY_TIME]
      rw [hstep]
      exact ih ts

/-- Evaluation of the harness on the fifty flat candles. -/
theorem c8_run_eval : ∀ now : ℕ, BT.runBacktest c8Candles now = some (BT.mkStats [] now) := by
  intro now
  have hlen : c8Candles.length = 50 := by simp [c8Candles]
  simp only [BT.runBacktest, hlen]
  rw [if_neg (by omega)]
  rw [show c8Candles.foldl BT.step ((none : Option BT.SimPos), ([] : List BT.TradeRec)) =
    ((none : Option BT.SimPos), ([] : List BT.TradeRec)) from c8_fold_flat 50 []]

/-- Claim C8: as stated the claim fails on the code. The harness's
stats assembly stamps `lastUpdated` with a wall-clock read, so two
runs on identical candles and configuration produce different
serialized stats objects; only the trade ledger inside is identical. -/
theorem C8_counterexample :
    BT.runBacktest c8Candles 0 ≠ BT.runBacktest c8Candles 1 ∧
    (BT.runBacktest c8Candles 0).map BT.Stats.lastUpdated = some 0 ∧
    (BT.runBacktest c8Candles 1).map BT.Stats.lastUpdated = some 1 ∧
    (BT.runBacktest c8Candles 0).map BT.Stats.trades =
      (BT.runBacktest c8Candles 1).map BT.Stats.trades := by
  refine ⟨?_, ?_, ?_, ?_⟩
  · intro h
    have h2 := congrArg (Option.map BT.Stats.lastUpdated) h
    rw [c8_run_eval 0, c8_run_eval 1] at h2
    simp [BT.mkStats] at h2
  · rw [c8_run_eval 0]; rfl
  · rw [c8_run_eval 1]; rfl
  · rw [c8_run_eval 0, c8_run_eval 1]; rfl

/-- Claim C8 (amended): the backtest computation itself reads no
clock and uses no randomness — the trade ledger, and every stats
field other than `lastUpdated`, is a pure function of the candles and
configuration, so two runs on identical inputs produce identical
ledgers; but the stats envelope stamps `lastUpdated` with the wall
clock, so the serialized stats files of two runs differ there. -/
theorem C8_determinism :
    (∀ (candles : List BT.Candle) (n1 n2 : ℕ),
      (BT.runBacktest candles n1).map BT.Stats.trades =
      (BT.runBacktest candles n2).map BT.Stats.trades) ∧
    (∀ (candles : List BT.Candle) (n1 n2 : ℕ),
      (BT.runBacktest candles n1).map (fun s => { s with lastUpdated := 0 }) =
      (BT.runBacktest candles n2).map (fun s => { s with lastUpdated := 0 })) := by
  constructor
  · intro candles n1 n2
    simp only [BT.runBacktest]
    split_ifs with h
    · rfl
    · rfl
  · intro candles n1 n2
    simp only [BT.runBacktest]
    split_ifs with h
    · rfl
    · rfl

end AlgoTrade
